import Mathlib

/-
Verification of the Wootomator product-generation pipeline.

The development shallowly embeds the pipeline of `wootomator.py` and the
variation fan-out of `app.py`:

* Python strings are `String` (manipulated through their `List Char` data);
  the decimal rendering of integers by f-strings is `natDecimal`.
* Python floats carrying prices are embedded as exact rationals `ℚ`.
* The external effects of `GeminiAPI.analyze_image` (HTTP fetch, image
  decoding, the inference call and JSON parsing) are an oracle giving, per
  attempt, either an exception or the parsed JSON object plus the raw
  response text.  Everything after parsing (the post-validation, retry and
  fallback logic) is translated from the source.
* `process_image_urls` takes, besides the URL list and the key, the
  per-URL/per-attempt oracle, a per-URL `fatal` oracle standing for an
  unexpected runtime exception inside the loop body of one URL (the
  source wraps each iteration in `try/except Exception: continue`), the
  values of `int(time.time())` observed when building the id and the sku,
  and the current date string.
* `save_to_csv` takes a `WriteEnv` describing the outcome of the file
  system interaction: whether the write raised, and whether the file
  exists and its size afterwards.
-/

/-- Decimal digit character for a digit value; values 0..8 map to the
matching character and anything else to '9' (only 0..9 are ever used,
mirroring the digits of Python integer formatting). -/
def digitChar : Nat → Char
  | 0 => '0'
  | 1 => '1'
  | 2 => '2'
  | 3 => '3'
  | 4 => '4'
  | 5 => '5'
  | 6 => '6'
  | 7 => '7'
  | 8 => '8'
  | _ => '9'

/-- Numeric value of a digit character (codepoint minus 48). -/
def digitVal (c : Char) : Nat := c.toNat - 48

/-- Fuel-driven decimal rendering of a natural number, least significant
digit last; the fuel is always taken large enough. -/
def natDecimalAux : Nat → Nat → List Char
  | 0, _ => []
  | fuel + 1, n =>
    if n < 10 then [digitChar n]
    else natDecimalAux fuel (n / 10) ++ [digitChar (n % 10)]

/-- Decimal digit list of a natural number, embedding the rendering of a
Python int by an f-string. -/
def natDecimal (n : Nat) : List Char := natDecimalAux (n + 1) n

/-- Decimal string of a natural number. -/
def natToString (n : Nat) : String := String.mk (natDecimal n)

/-- Numeric value of a digit-character list, most significant first. -/
def valD (l : List Char) : Nat := l.foldl (fun a c => a * 10 + digitVal c) 0

theorem digitChar_ne_dash (d : Nat) : digitChar d ≠ '-' := by
  unfold digitChar
  split <;> decide

theorem natDecimalAux_irrel (f1 : Nat) : ∀ (f2 n : Nat), n < f1 → n < f2 →
    natDecimalAux f1 n = natDecimalAux f2 n := by
  induction f1 with
  | zero => intro f2 n h1 _; omega
  | succ f1 ih =>
    intro f2 n h1 h2
    cases f2 with
    | zero => omega
    | succ f2 =>
      show natDecimalAux (f1 + 1) n = natDecimalAux (f2 + 1) n
      by_cases h : n < 10
      · simp [natDecimalAux, h]
      · have hdiv : n / 10 < n := Nat.div_lt_self (by omega) (by omega)
        simp only [natDecimalAux, if_neg h]
        rw [ih (f2) (n / 10) (by omega) (by omega)]

theorem natDecimal_lt10 (n : Nat) (h : n < 10) : natDecimal n = [digitChar n] := by
  simp [natDecimal, natDecimalAux, h]

theorem natDecimal_ge10 (n : Nat) (h : 10 ≤ n) :
    natDecimal n = natDecimal (n / 10) ++ [digitChar (n % 10)] := by
  have hdiv : n / 10 < n := Nat.div_lt_self (by omega) (by omega)
  show natDecimalAux (n + 1) n = natDecimalAux (n / 10 + 1) (n / 10) ++ [digitChar (n % 10)]
  rw [show natDecimalAux (n + 1) n = natDecimalAux n (n / 10) ++ [digitChar (n % 10)] from by
    simp only [natDecimalAux, if_neg (by omega : ¬ n < 10)]]
  rw [natDecimalAux_irrel n (n / 10 + 1) (n / 10) (by omega) (by omega)]

theorem valD_append_one (l : List Char) (c : Char) :
    valD (l ++ [c]) = valD l * 10 + digitVal c := by
  simp [valD, List.foldl_append]

theorem digitVal_digitChar (d : Nat) (h : d < 10) : digitVal (digitChar d) = d := by
  interval_cases d <;> decide

theorem valD_natDecimal (n : Nat) : valD (natDecimal n) = n := by
  induction n using Nat.strong_induction_on with
  | _ n ih =>
    by_cases h : n < 10
    · rw [natDecimal_lt10 n h]
      show valD [digitChar n] = n
      simp [valD, digitVal_digitChar n h]
    · rw [natDecimal_ge10 n (by omega), valD_append_one,
        ih (n / 10) (Nat.div_lt_self (by omega) (by omega)),
        digitVal_digitChar (n % 10) (Nat.mod_lt n (by omega))]
      omega

theorem natDecimal_inj {a b : Nat} (h : natDecimal a = natDecimal b) : a = b := by
  have ha := valD_natDecimal a
  rw [h, valD_natDecimal b] at ha
  omega

theorem natDecimal_ne_dash (n : Nat) : ∀ c ∈ natDecimal n, c ≠ '-' := by
  induction n using Nat.strong_induction_on with
  | _ n ih =>
    by_cases h : n < 10
    · rw [natDecimal_lt10 n h]
      intro c hc
      rw [List.mem_singleton] at hc
      subst hc
      exact digitChar_ne_dash n
    · rw [natDecimal_ge10 n (by omega)]
      intro c hc
      rcases List.mem_append.mp hc with h1 | h2
      · exact ih (n / 10) (Nat.div_lt_self (by omega) (by omega)) c h1
      · rw [List.mem_singleton] at h2
        subst h2
        exact digitChar_ne_dash (n % 10)

theorem eq_of_append_dash_eq :
    ∀ (l1 l2 r1 r2 : List Char), (∀ c ∈ l1, c ≠ '-') → (∀ c ∈ l2, c ≠ '-') →
      l1 ++ '-' :: r1 = l2 ++ '-' :: r2 → l1 = l2 ∧ r1 = r2 := by
  intro l1
  induction l1 with
  | nil =>
    intro l2 r1 r2 _ h2 heq
    cases l2 with
    | nil =>
      simp only [List.nil_append, List.cons.injEq] at heq
      exact ⟨rfl, heq.2⟩
    | cons b t =>
      simp only [List.nil_append, List.cons_append, List.cons.injEq] at heq
      exact absurd heq.1.symm (h2 b (List.mem_cons_self b t))
  | cons a t ih =>
    intro l2 r1 r2 h1 h2 heq
    cases l2 with
    | nil =>
      simp only [List.nil_append, List.cons_append, List.cons.injEq] at heq
      exact absurd heq.1 (h1 a (List.mem_cons_self a t))
    | cons b t2 =>
      simp only [List.cons_append, List.cons.injEq] at heq
      obtain ⟨hab, hrest⟩ := heq
      obtain ⟨ht, hr⟩ := ih t2 r1 r2 (fun c hc => h1 c (List.mem_cons_of_mem a hc))
        (fun c hc => h2 c (List.mem_cons_of_mem b hc)) hrest
      exact ⟨by rw [hab, ht], hr⟩

theorem string_data_append (s t : String) : (s ++ t).data = s.data ++ t.data := rfl

theorem string_data_mk (l : List Char) : (String.mk l).data = l := rfl

theorem string_eq_of_data {s t : String} (h : s.data = t.data) : s = t := by
  cases s
  cases t
  exact congrArg String.mk h

/-- Index of the first position of `need` inside a character list, scanning
left to right (the search of Python `str.find` restricted to start 0). -/
def findIn (need : List Char) : List Char → Option Nat
  | [] => if need.isPrefixOf ([] : List Char) then some 0 else none
  | c :: t =>
    if need.isPrefixOf (c :: t) then some 0
    else (findIn need t).map (fun k => k + 1)

/-- Python `str.find(sub)`: index of the first occurrence, `-1` if absent. -/
def pyFind (l need : List Char) : Int :=
  match findIn need l with
  | some k => Int.ofNat k
  | none => -1

/-- Python `str.find(sub, start)`: first occurrence at or after `start`,
`-1` if absent. -/
def pyFindFrom (l need : List Char) (start : Nat) : Int :=
  if start > l.length then -1
  else
    match findIn need (l.drop start) with
    | some k => Int.ofNat (start + k)
    | none => -1

/-- Substring test, embedding the Python `in` operator on strings. -/
def containsSub (hay need : String) : Bool := (findIn need.data hay.data).isSome

/-- Fuel-driven splitting on a non-empty separator; with fuel above the
length of the list this is Python `str.split(sep)`. -/
def splitSepAux (sep : List Char) : Nat → List Char → List Char → List (List Char)
  | 0, l, acc => [acc.reverse ++ l]
  | fuel + 1, l, acc =>
    match l with
    | [] => [acc.reverse]
    | c :: t =>
      if sep.isPrefixOf (c :: t) then
        acc.reverse :: splitSepAux sep fuel (List.drop sep.length (c :: t)) []
      else splitSepAux sep fuel t (c :: acc)

/-- Python `str.split(sep)` on character lists, for non-empty `sep`. -/
def pySplit (sep : List Char) (l : List Char) : List (List Char) :=
  splitSepAux sep (l.length + 1) l []

/-- Whitespace test of Python `str.strip()`. -/
def pyWs (c : Char) : Bool :=
  c == ' ' || c == '\t' || c == '\n' || c == '\r' || c.toNat == 11 || c.toNat == 12

/-- Python `str.strip()` on a character list. -/
def trimL (l : List Char) : List Char :=
  ((l.dropWhile pyWs).reverse.dropWhile pyWs).reverse

/-- Python `str.strip()`. -/
def trimStr (s : String) : String := String.mk (trimL s.data)

/-- Python `str.strip('"')` on a character list. -/
def stripQuotes (l : List Char) : List Char :=
  ((l.dropWhile (fun c => c == '"')).reverse.dropWhile (fun c => c == '"')).reverse

/-- Python slice `s[a:b]` on a character list. -/
def sliceL (l : List Char) (a b : Nat) : List Char := (l.drop a).take (b - a)

/-- Lower-casing of ASCII letters, embedding the effect of Python
`str.lower()` on the strings this pipeline compares. -/
def lowerChar : Char → Char
  | 'A' => 'a'
  | 'B' => 'b'
  | 'C' => 'c'
  | 'D' => 'd'
  | 'E' => 'e'
  | 'F' => 'f'
  | 'G' => 'g'
  | 'H' => 'h'
  | 'I' => 'i'
  | 'J' => 'j'
  | 'K' => 'k'
  | 'L' => 'l'
  | 'M' => 'm'
  | 'N' => 'n'
  | 'O' => 'o'
  | 'P' => 'p'
  | 'Q' => 'q'
  | 'R' => 'r'
  | 'S' => 's'
  | 'T' => 't'
  | 'U' => 'u'
  | 'V' => 'v'
  | 'W' => 'w'
  | 'X' => 'x'
  | 'Y' => 'y'
  | 'Z' => 'z'
  | c => c

/-- Python `str.lower()`. -/
def lowerStr (s : String) : String := String.mk (s.data.map lowerChar)

/-- Joining of a string list with a separator, embedding Python
`sep.join(items)`. -/
def joinSep (sep : String) : List String → String
  | [] => ""
  | [x] => x
  | x :: xs => x ++ sep ++ joinSep sep xs

/-- Filename part of an image URL: Python
`image_url.split('/')[-1].split('?')[0]`. -/
def urlFilename (url : String) : String :=
  String.mk (((pySplit ['?'] ((pySplit ['/'] url.data).getLastD [])).headD []))

/-- Name salvage of `GeminiAPI.analyze_image` lines 371-375: when the JSON
lacks a product name, scan the raw response text for a
`"product_name":` key and slice out what follows, stripping quotes;
`none` when any of the guards of the source fail. -/
def extractNameFromText (text : String) : Option String :=
  let l := text.data
  if (findIn "product_name".data l).isSome then
    let ns : Int := pyFind l "\"product_name\":".data + 15
    let ne : Int := pyFindFrom l ['"'] (ns + 1).toNat
    if 14 < ns ∧ ns < ne then
      some (String.mk (stripQuotes (sliceL l ns.toNat ne.toNat)))
    else none
  else none

/-- Value of a matched numeral: integer digits plus up to two fraction
digits, as Python `float` applied to the matched group. -/
def numeralVal (ds fr : List Char) : ℚ :=
  (valD ds : ℚ) + (valD fr : ℚ) / (10 : ℚ) ^ fr.length

/-- Fraction part matched by `(\.\d{1,2})?`: a dot followed greedily by one
or two digits, if present. -/
def takeFrac : List Char → List Char
  | '.' :: c1 :: c2 :: _ =>
    if c1.isDigit then (if c2.isDigit then [c1, c2] else [c1]) else []
  | ['.', c1] => if c1.isDigit then [c1] else []
  | _ => []

/-- First currency-like numeral of the response text, embedding
`re.findall(r'\$?\s*(\d+(\.\d{1,2})?)', text)[0][0]` followed by `float`:
the group of the first match is the first maximal digit run, extended by
an optional fraction of one or two digits. -/
def firstNumeral (text : String) : Option ℚ :=
  match text.data.dropWhile (fun c => !c.isDigit) with
  | [] => none
  | c :: rest =>
    some (numeralVal (List.takeWhile Char.isDigit (c :: rest))
      (takeFrac (List.dropWhile Char.isDigit (c :: rest))))

/-- Run-wide discount fraction, default of `get_env_float`
(`DISCOUNT_PERCENTAGE`, 0.80). -/
def DISCOUNT_PERCENTAGE : ℚ := 80 / 100

/-- Run-wide minimum sale price, default of `get_env_float`
(`MINIMUM_SALE_PRICE`, 120.00). -/
def MINIMUM_SALE_PRICE : ℚ := 120

/-- Price Engine: `WooCommerceCSVExporter.calculate_sale_price`. -/
def calculate_sale_price (original_price : ℚ) : ℚ :=
  max (original_price * (1 - DISCOUNT_PERCENTAGE)) MINIMUM_SALE_PRICE

/-- Rounding to the nearest integer, ties to even, the rounding of Python
float formatting on our exact-rational embedding. -/
def roundHalfEven (q : ℚ) : ℤ :=
  let f : ℤ := ⌊q⌋
  let r : ℚ := q - (f : ℚ)
  if r < 1 / 2 then f
  else if 1 / 2 < r then f + 1
  else if f % 2 = 0 then f else f + 1

/-- Two-digit left padding of a fraction value below 100. -/
def pad2 (m : Nat) : String :=
  if m < 10 then "0" ++ natToString m else natToString m

/-- Python `f'{x:.2f}'` on the exact-rational embedding of a price. -/
def format2 (q : ℚ) : String :=
  let n : ℤ := roundHalfEven (q * 100)
  (if n < 0 then "-" else "") ++ natToString (n.natAbs / 100) ++ "." ++ pad2 (n.natAbs % 100)

/-- Parsed JSON object of one successful inference response, before the
post-validation of `analyze_image`.  `none` marks a missing key; for
`original_price`, the inner `none` marks a value that is not a number
(failing the `isinstance(..., (int, float))` check); `categories` and
`detailed_description` may be a string or a list. -/
structure RawResult where
  product_name : Option String := none
  original_price : Option (Option ℚ) := none
  categories : Option (Sum String (List String)) := none
  brand : Option String := none
  short_description : Option String := none
  detailed_description : Option (Sum String (List String)) := none

/-- Dictionary returned by `GeminiAPI.analyze_image`: after post-validation
a product name and numeric price are always present. -/
structure ExtractionResult where
  product_name : String
  original_price : ℚ
  categories : Option (Sum String (List String)) := none
  brand : Option String := none
  short_description : Option String := none
  detailed_description : Option (Sum String (List String)) := none

/-- Price salvage of `analyze_image` lines 384-394: first currency-like
numeral of the raw response text, else the default price 199.99. -/
def salvagePrice (text : String) : ℚ :=
  match firstNumeral text with
  | some q => q
  | none => 19999 / 100

/-- Post-validation of a parsed response, `analyze_image` lines 364-399:
derive a product name when missing (from the raw text, then from the URL
filename), replace a missing, non-numeric or non-positive price by the
salvage value, and recognise the Supreme brand from the product name. -/
def postValidate (url : String) (raw : RawResult) (text : String) : ExtractionResult :=
  let name1 : Option String :=
    if raw.product_name.getD "" = "" then
      match extractNameFromText text with
      | some s => some s
      | none => raw.product_name
    else raw.product_name
  let name : String :=
    if name1.getD "" = "" then "Product " ++ urlFilename url else name1.getD ""
  let price : ℚ :=
    match raw.original_price with
    | some (some q) => if q ≤ 0 then salvagePrice text else q
    | _ => salvagePrice text
  let brand : Option String :=
    if raw.brand.getD "" = "" ∨ lowerStr (raw.brand.getD "") = "unknown" then
      (if containsSub (lowerStr name) "supreme" then some "Supreme" else raw.brand)
    else raw.brand
  { product_name := name
    original_price := price
    categories := raw.categories
    brand := brand
    short_description := raw.short_description
    detailed_description := raw.detailed_description }

/-- Retry bound of `analyze_image` (`max_retries = 3`). -/
def maxRetries : Nat := 3

/-- Fallback dictionary returned when the last attempt raises
(`analyze_image` lines 408-415). -/
def fallbackA (url : String) : ExtractionResult :=
  { product_name := "Product from " ++ urlFilename url
    original_price := 19999 / 100
    categories := some (Sum.inr ["Uncategorized"])
    brand := some "Unknown"
    short_description := some "Product details not available"
    detailed_description := some (Sum.inr ["No description available"]) }

/-- Fallback dictionary after the retry loop (`analyze_image` lines
420-427); dead code in the source, kept for fidelity. -/
def fallbackB (url : String) : ExtractionResult :=
  { product_name := "Product from " ++ urlFilename url
    original_price := 19999 / 100
    categories := some (Sum.inr ["Uncategorized"])
    brand := some "Unknown"
    short_description := some "Failed to analyze product image"
    detailed_description := some (Sum.inr ["Error processing product image"]) }

/-- Retry loop of `analyze_image`: `remaining` attempts left, `attempt` the
current zero-based attempt index; the oracle yields, per attempt, either
the parsed object and raw text or the exception raised by that attempt. -/
def analyzeFrom (url : String) (oracle : Nat → Except String (RawResult × String)) :
    Nat → Nat → ExtractionResult
  | 0, _ => fallbackB url
  | remaining + 1, attempt =>
    match oracle attempt with
    | Except.ok r => postValidate url r.1 r.2
    | Except.error _ =>
      if remaining = 0 then fallbackA url
      else analyzeFrom url oracle remaining (attempt + 1)

/-- Attribute Extractor: `GeminiAPI.analyze_image`.  Total, embedding the
never-raises contract of the source. -/
def analyze_image (url : String) (oracle : Nat → Except String (RawResult × String)) :
    ExtractionResult :=
  analyzeFrom url oracle maxRetries 0

/-- Catalog record: the `WooCommerceProduct` dataclass with its field
defaults. -/
structure WooCommerceProduct where
  id : String := ""
  type : String := "simple"
  sku : String := ""
  gtin_upc_ean_isbn : String := ""
  name : String := ""
  published : String := "1"
  is_featured : String := "0"
  visibility : String := "visible"
  short_description : String := ""
  description : String := ""
  date_sale_price_starts : String := ""
  date_sale_price_ends : String := ""
  tax_status : String := "taxable"
  tax_class : String := ""
  in_stock : String := "1"
  stock : String := "100"
  low_stock_amount : String := "2"
  backorders_allowed : String := "0"
  sold_individually : String := "0"
  weight_lbs : String := "1"
  length_in : String := "10"
  width_in : String := "10"
  height_in : String := "5"
  allow_customer_reviews : String := "1"
  purchase_note : String := ""
  sale_price : String := ""
  regular_price : String := ""
  categories : String := ""
  tags : String := ""
  shipping_class : String := ""
  images : String := ""
  download_limit : String := ""
  download_expiry_days : String := ""
  parent : String := ""
  grouped_products : String := ""
  upsells : String := ""
  cross_sells : String := ""
  external_url : String := ""
  button_text : String := ""
  position : String := "0"
  brands : String := ""
  attribute_1_name : String := "Brand"
  attribute_1_values : String := ""
  attribute_1_visible : String := "1"
  attribute_1_global : String := "1"
  deriving DecidableEq

/-- Description cleanup of `process_image_urls` lines 539-556 for a list:
keep the lines from the first one containing `PRODUCT DETAILS:` onward
(the skip of leading empty lines is kept although unreachable, since the
marker line itself is appended first). -/
def cleanDetailed (items : List String) : List String :=
  (items.foldl
    (fun st item =>
      if containsSub item "PRODUCT DETAILS:" then (true, st.2 ++ [item])
      else if st.1 then
        (if trimStr item = "" ∧ st.2 = [] then st else (st.1, st.2 ++ [item]))
      else st)
    (false, ([] : List String))).2

/-- Description construction of `process_image_urls` lines 536-573. -/
def buildDescription (short_desc : String) (detailed : Option (Sum String (List String))) :
    String :=
  match detailed.getD (Sum.inr []) with
  | Sum.inr items =>
    let cleaned := cleanDetailed items
    if cleaned ≠ [] then joinSep "\n" (cleaned.map (fun it => "<li>" ++ it ++ "</li>"))
    else "<p>" ++ short_desc ++ "</p>"
  | Sum.inl s =>
    if containsSub s "PRODUCT DETAILS:" then
      let d := trimL ((pySplit ("PRODUCT DETAILS:".data) s.data).getLastD [])
      let lines := ((pySplit ['\n'] d).map trimL).filter (fun l => l ≠ [])
      joinSep "\n" (lines.map (fun l => "<li>" ++ String.mk l ++ "</li>"))
    else "<p>" ++ short_desc ++ "</p>"

/-- Sku of the record built for the 1-based URL ordinal `i`:
`f'WC-{int(time.time())}-{i}'`. -/
def skuOf (t i : Nat) : String := "WC-" ++ natToString t ++ "-" ++ natToString i

/-- Record assembly for one URL, `process_image_urls` lines 527-603: `i` is
the 1-based ordinal of the URL, `tId` and `tSku` the `int(time.time())`
values observed for the id and the sku, `today` the current date. -/
def buildProduct (url : String) (i : Nat) (x : ExtractionResult) (tId tSku : Nat)
    (today : String) : WooCommerceProduct :=
  { id := "wc-" ++ natToString tId ++ "-" ++ natToString i
    sku := skuOf tSku i
    name := x.product_name
    short_description := x.short_description.getD ""
    description := buildDescription (x.short_description.getD "") x.detailed_description
    regular_price := format2 x.original_price
    sale_price := format2 (calculate_sale_price x.original_price)
    date_sale_price_starts := today
    date_sale_price_ends := ""
    categories :=
      match x.categories.getD (Sum.inr ["Uncategorized"]) with
      | Sum.inl s => s
      | Sum.inr l => joinSep "," l
    brands := x.brand.getD ""
    attribute_1_values := x.brand.getD ""
    images := url
    in_stock := "1"
    stock := "100"
    tax_status := "taxable"
    visibility := "visible"
    published := "1" }

/-- Batch entry point: `process_image_urls`.  Raises (`Except.error`) only
on an empty key; each URL is processed in order, an iteration whose
`fatal` oracle fires models an unexpected exception caught by the
per-iteration `try/except`, dropping that record. -/
def process_image_urls (image_urls : List String) (api_key : String)
    (oracle : Nat → Nat → Except String (RawResult × String))
    (fatal : Nat → Option String) (timeId timeSku : Nat → Nat) (today : String) :
    Except String (List WooCommerceProduct) :=
  if api_key = "" then Except.error "GEMINI_API_KEY environment variable is not set"
  else
    Except.ok (image_urls.enum.filterMap (fun p =>
      match fatal p.1 with
      | some _ => none
      | none => some (buildProduct p.2 (p.1 + 1) (analyze_image p.2 (oracle p.1))
          (timeId p.1) (timeSku p.1) today)))

/-- Records of a non-raising batch run, the empty list on an error. -/
def recordsOf (r : Except String (List WooCommerceProduct)) : List WooCommerceProduct :=
  match r with
  | Except.ok l => l
  | Except.error _ => []

/-- Outcome of the file-system interaction of one `save_to_csv` call:
whether the directory-creation/open/write sequence raised, and whether
the file exists afterwards and with which size. -/
structure WriteEnv where
  writeError : Option String
  existsAfter : Bool
  sizeAfter : Nat

/-- Catalog Serializer: `WooCommerceCSVExporter.save_to_csv`.  Total,
embedding the never-raises contract; both `except` branches of the
source return `False`. -/
def save_to_csv (products : List WooCommerceProduct) (env : WriteEnv) : Bool :=
  if products.isEmpty then false
  else
    match env.writeError with
    | some _ => false
    | none =>
      if env.existsAfter then
        (if 0 < env.sizeAfter then true else false)
      else false

/-- One product entry of the JSON posted back to `/generate_csv`; a `none`
sku marks an entry skipped by the `'sku' not in product_data` guard. -/
structure ProductData where
  name : Option String := none
  sku : Option String := none
  regular_price : Option String := none
  sale_price : Option String := none
  short_description : Option String := none
  image : Option String := none
  deriving DecidableEq

/-- Variable parent record built by `app.generate_csv` lines 244-256. -/
def mkParent (pd : ProductData) (s : String) (sizes : List String) : WooCommerceProduct :=
  { name := pd.name.getD "Product"
    sku := s
    regular_price := pd.regular_price.getD "0.00"
    sale_price := pd.sale_price.getD ""
    short_description := pd.short_description.getD ""
    images := pd.image.getD ""
    type := "variable"
    attribute_1_name := "Size"
    attribute_1_values := joinSep "|" sizes
    attribute_1_visible := "1"
    attribute_1_global := "0" }

/-- Variation record built by `app.generate_csv` lines 262-277. -/
def mkVariation (pd : ProductData) (s : String) (size : String) : WooCommerceProduct :=
  { name := pd.name.getD "Product" ++ " - " ++ size
    sku := s ++ "-" ++ size
    regular_price := pd.regular_price.getD "0.00"
    sale_price := pd.sale_price.getD ""
    short_description := pd.short_description.getD ""
    images := pd.image.getD ""
    type := "variation"
    parent := s
    attribute_1_name := "Size"
    attribute_1_values := size
    attribute_1_visible := "1"
    attribute_1_global := "0" }

/-- Variation fan-out step of `app.generate_csv` lines 233-277: per valid
product, one variable parent followed by one variation per requested
size. -/
def generate_csv_products (products : List ProductData) (sizes : List String) :
    List WooCommerceProduct :=
  products.flatMap (fun pd =>
    match pd.sku with
    | none => []
    | some s => mkParent pd s sizes :: sizes.map (mkVariation pd s))

/-- Sku shape of records built by the core pipeline. -/
def PipeShaped (s : String) : Prop := ∃ t i, s = skuOf t i

theorem skuOf_data (t i : Nat) :
    (skuOf t i).data = 'W' :: 'C' :: '-' :: (natDecimal t ++ '-' :: natDecimal i) := by
  show (("WC-" ++ natToString t ++ "-") ++ natToString i).data = _
  rw [string_data_append, string_data_append, string_data_append]
  show (['W', 'C', '-'] ++ (natDecimal t) ++ ['-']) ++ (natDecimal i) = _
  simp [List.append_assoc]

theorem skuOf_inj {t i u j : Nat} (h : skuOf t i = skuOf u j) : t = u ∧ i = j := by
  have hd : 'W' :: 'C' :: '-' :: (natDecimal t ++ '-' :: natDecimal i)
      = 'W' :: 'C' :: '-' :: (natDecimal u ++ '-' :: natDecimal j) := by
    rw [← skuOf_data, ← skuOf_data, h]
  simp only [List.cons.injEq, true_and] at hd
  obtain ⟨h1, h2⟩ := eq_of_append_dash_eq _ _ _ _ (natDecimal_ne_dash t) (natDecimal_ne_dash u) hd
  exact ⟨natDecimal_inj h1, natDecimal_inj h2⟩

/-- Count of dash characters of a string. -/
def dashCount (s : String) : Nat := s.data.count '-'

theorem count_dash_natDecimal (n : Nat) : (natDecimal n).count '-' = 0 :=
  List.count_eq_zero.mpr (fun h => natDecimal_ne_dash n '-' h rfl)

theorem dashCount_skuOf (t i : Nat) : dashCount (skuOf t i) = 2 := by
  simp [dashCount, skuOf_data, List.count_append, List.count_cons, count_dash_natDecimal]

theorem dashCount_append (s t : String) : dashCount (s ++ t) = dashCount s + dashCount t := by
  simp [dashCount, string_data_append, List.count_append]

theorem dashCount_variation (s z : String) :
    dashCount (s ++ "-" ++ z) = dashCount s + 1 + dashCount z := by
  rw [dashCount_append, dashCount_append]
  rfl

theorem parent_ne_variation {s s' z : String} (hs : PipeShaped s) (hs' : PipeShaped s') :
    s ≠ s' ++ "-" ++ z := by
  obtain ⟨t, i, rfl⟩ := hs
  obtain ⟨u, j, rfl⟩ := hs'
  intro h
  have := congrArg dashCount h
  rw [dashCount_skuOf, dashCount_variation, dashCount_skuOf] at this
  omega

theorem variation_sku_inj {t i u j : Nat} {z z' : String}
    (h : skuOf t i ++ "-" ++ z = skuOf u j ++ "-" ++ z') : t = u ∧ i = j ∧ z = z' := by
  have hd : (skuOf t i ++ "-" ++ z).data = (skuOf u j ++ "-" ++ z').data := by rw [h]
  rw [string_data_append, string_data_append, string_data_append, string_data_append,
    skuOf_data, skuOf_data] at hd
  have hd2 : natDecimal t ++ '-' :: (natDecimal i ++ '-' :: z.data)
      = natDecimal u ++ '-' :: (natDecimal j ++ '-' :: z'.data) := by
    have : ∀ (a b : List Char) (w : List Char),
        (('W' :: 'C' :: '-' :: (a ++ '-' :: b)) ++ ['-']) ++ w
          = 'W' :: 'C' :: '-' :: (a ++ '-' :: (b ++ '-' :: w)) := by
      intro a b w
      simp [List.append_assoc]
    rw [this, this] at hd
    simpa using hd
  obtain ⟨h1, hrest⟩ := eq_of_append_dash_eq _ _ _ _ (natDecimal_ne_dash t)
    (natDecimal_ne_dash u) hd2
  obtain ⟨h2, h3⟩ := eq_of_append_dash_eq _ _ _ _ (natDecimal_ne_dash i)
    (natDecimal_ne_dash j) hrest
  exact ⟨natDecimal_inj h1, natDecimal_inj h2, string_eq_of_data h3⟩

theorem append_dash_right_inj {s z z' : String} (h : s ++ "-" ++ z = s ++ "-" ++ z') :
    z = z' := by
  have hd : (s ++ "-" ++ z).data = (s ++ "-" ++ z').data := by rw [h]
  rw [string_data_append, string_data_append, string_data_append, string_data_append,
    List.append_assoc, List.append_assoc] at hd
  exact string_eq_of_data (List.append_cancel_left (List.append_cancel_left hd))

/-- Skus emitted by the fan-out for one valid product entry. -/
theorem mem_fanout_skus {x : String} {tl : List ProductData} {sizes : List String}
    (hx : x ∈ (generate_csv_products tl sizes).map (fun r => r.sku)) :
    ∃ pd ∈ tl, ∃ s, pd.sku = some s ∧ (x = s ∨ ∃ z ∈ sizes, x = s ++ "-" ++ z) := by
  rw [List.mem_map] at hx
  obtain ⟨r, hr, hrx⟩ := hx
  rw [generate_csv_products, List.mem_flatMap] at hr
  obtain ⟨pd, hpd, hrmem⟩ := hr
  cases hsku : pd.sku with
  | none => rw [hsku] at hrmem; simp at hrmem
  | some s =>
    rw [hsku] at hrmem
    rcases List.mem_cons.mp hrmem with h | h
    · exact ⟨pd, hpd, s, hsku, Or.inl (by rw [← hrx, h]; rfl)⟩
    · rw [List.mem_map] at h
      obtain ⟨z, hz, hzr⟩ := h
      exact ⟨pd, hpd, s, hsku, Or.inr ⟨z, hz, by rw [← hrx, ← hzr]; rfl⟩⟩

/-- Fan-out sku uniqueness for pipe-shaped parent skus and duplicate-free
sizes. -/
theorem fanout_skus_nodup (sizes : List String) (hsz : sizes.Nodup) :
    ∀ products : List ProductData,
      (∀ pd ∈ products, ∀ s, pd.sku = some s → PipeShaped s) →
      (products.filterMap (fun pd => pd.sku)).Nodup →
      ((generate_csv_products products sizes).map (fun r => r.sku)).Nodup := by
  intro products
  induction products with
  | nil => intro _ _; simp [generate_csv_products]
  | cons pd tl ih =>
    intro hp hn
    rw [generate_csv_products, List.flatMap_cons]
    cases hsku : pd.sku with
    | none =>
      rw [List.filterMap_cons, hsku] at hn
      simp only [hsku]
      rw [List.nil_append]
      exact ih (fun q hq => hp q (List.mem_cons_of_mem pd hq)) hn
    | some s =>
      have hps : PipeShaped s := hp pd (List.mem_cons_self pd tl) s hsku
      rw [List.filterMap_cons, hsku] at hn
      rw [List.nodup_cons] at hn
      obtain ⟨hs_notin, hn_tl⟩ := hn
      simp only [hsku]
      rw [List.map_append, List.nodup_append]
      refine ⟨?_, ih (fun q hq => hp q (List.mem_cons_of_mem pd hq)) hn_tl, ?_⟩
      · -- the head block `s :: variations of s` has no duplicate
        rw [List.map_cons, List.nodup_cons]
        constructor
        · intro hmem
          rw [List.map_map, List.mem_map] at hmem
          obtain ⟨z, _, hz⟩ := hmem
          exact parent_ne_variation hps hps (hz.symm)
        · rw [List.map_map]
          refine List.Nodup.map_on ?_ hsz
          intro z1 _ z2 _ hzz
          exact append_dash_right_inj hzz
        -- `(mkVariation pd s z).sku` is definitionally `s ++ "-" ++ z`
      · -- head block disjoint from the skus of the tail fan-out
        intro x hx1 hx2
        have hx2' := mem_fanout_skus hx2
        obtain ⟨pd', hpd', s', hsku', hforms'⟩ := hx2'
        have hps' : PipeShaped s' := hp pd' (List.mem_cons_of_mem pd hpd') s' hsku'
        have hs_ne : s ≠ s' := by
          intro hss
          exact hs_notin (List.mem_filterMap.mpr ⟨pd', hpd', by rw [hsku', hss]⟩)
        rw [List.map_cons, List.map_map] at hx1
        rcases List.mem_cons.mp hx1 with hx | hx
        · have hxs : x = s := hx
          rcases hforms' with h' | ⟨z', _, h'⟩
          · exact hs_ne (hxs.symm.trans h')
          · exact parent_ne_variation hps hps' (hxs.symm.trans h')
        · rw [List.mem_map] at hx
          obtain ⟨z, _, hz⟩ := hx
          have hxz : x = s ++ "-" ++ z := hz.symm
          rcases hforms' with h' | ⟨z', _, h'⟩
          · exact parent_ne_variation hps' hps (h'.symm.trans hxz)
          · obtain ⟨t, i, rfl⟩ := hps
            obtain ⟨u, j, rfl⟩ := hps'
            have := variation_sku_inj (hxz.symm.trans h')
            exact hs_ne (by rw [this.1, this.2.1])

theorem firstNumeral_nonneg {text : String} {q : ℚ} (h : firstNumeral text = some q) :
    0 ≤ q := by
  rw [firstNumeral] at h
  rcases hd : text.data.dropWhile (fun c => !c.isDigit) with _ | ⟨c, rest⟩
  · rw [hd] at h
    exact Option.noConfusion h
  · rw [hd] at h
    simp only [Option.some.injEq] at h
    rw [← h]
    unfold numeralVal
    positivity

theorem salvagePrice_nonneg (text : String) : 0 ≤ salvagePrice text := by
  rcases h : firstNumeral text with _ | q
  · simp only [salvagePrice, h]
    norm_num
  · simp only [salvagePrice, h]
    exact firstNumeral_nonneg h

theorem postValidate_price_nonneg (url : String) (raw : RawResult) (text : String) :
    0 ≤ (postValidate url raw text).original_price := by
  rcases h : raw.original_price with _ | op
  · have he : (postValidate url raw text).original_price = salvagePrice text := by
      simp [postValidate, h]
    rw [he]
    exact salvagePrice_nonneg text
  · rcases op with _ | q
    · have he : (postValidate url raw text).original_price = salvagePrice text := by
        simp [postValidate, h]
      rw [he]
      exact salvagePrice_nonneg text
    · by_cases hq : q ≤ 0
      · have he : (postValidate url raw text).original_price = salvagePrice text := by
          simp [postValidate, h, hq]
        rw [he]
        exact salvagePrice_nonneg text
      · have he : (postValidate url raw text).original_price = q := by
          simp [postValidate, h, hq]
        rw [he]
        linarith

theorem analyzeFrom_price_nonneg (url : String)
    (oracle : Nat → Except String (RawResult × String)) :
    ∀ rem att : Nat, 0 ≤ (analyzeFrom url oracle rem att).original_price := by
  intro rem
  induction rem with
  | zero =>
    intro att
    show 0 ≤ (fallbackB url).original_price
    show (0 : ℚ) ≤ 19999 / 100
    norm_num
  | succ rem ih =>
    intro att
    rcases ho : oracle att with e | r
    · rw [show analyzeFrom url oracle (rem + 1) att =
          (match oracle att with
            | Except.ok r => postValidate url r.1 r.2
            | Except.error _ =>
              if rem = 0 then fallbackA url else analyzeFrom url oracle rem (att + 1)) from rfl,
        ho]
      by_cases hrem : rem = 0
      · show 0 ≤ (if rem = 0 then fallbackA url else analyzeFrom url oracle rem (att + 1)).original_price
        rw [if_pos hrem]
        show (0 : ℚ) ≤ 19999 / 100
        norm_num
      · show 0 ≤ (if rem = 0 then fallbackA url else analyzeFrom url oracle rem (att + 1)).original_price
        rw [if_neg hrem]
        exact ih (att + 1)
    · rw [show analyzeFrom url oracle (rem + 1) att =
          (match oracle att with
            | Except.ok r => postValidate url r.1 r.2
            | Except.error _ =>
              if rem = 0 then fallbackA url else analyzeFrom url oracle rem (att + 1)) from rfl,
        ho]
      exact postValidate_price_nonneg url r.1 r.2

theorem process_build_skus_nodup (o : Nat → Nat → Except String (RawResult × String))
    (fatal : Nat → Option String) (tI tS : Nat → Nat) (today : String) :
    ∀ l : List (Nat × String), (l.map Prod.fst).Nodup →
      ((l.filterMap (fun p =>
          match fatal p.1 with
          | some _ => none
          | none => some (buildProduct p.2 (p.1 + 1) (analyze_image p.2 (o p.1))
              (tI p.1) (tS p.1) today))).map (fun r => r.sku)).Nodup := by
  intro l
  induction l with
  | nil => intro _; simp
  | cons hd tl ih =>
    intro h
    rw [List.map_cons, List.nodup_cons] at h
    rw [List.filterMap_cons]
    cases hf : fatal hd.1 with
    | some e =>
      simp only [hf]
      exact ih h.2
    | none =>
      simp only [hf]
      rw [List.map_cons, List.nodup_cons]
      constructor
      · intro hmem
        rw [List.mem_map] at hmem
        obtain ⟨r, hr, hrs⟩ := hmem
        rw [List.mem_filterMap] at hr
        obtain ⟨p, hp, hpr⟩ := hr
        cases hfp : fatal p.1 with
        | some e =>
          simp only [hfp] at hpr
          exact Option.noConfusion hpr
        | none =>
          simp only [hfp, Option.some.injEq] at hpr
          rw [← hpr] at hrs
          have hsk : skuOf (tS p.1) (p.1 + 1) = skuOf (tS hd.1) (hd.1 + 1) := hrs
          have hpd : p.1 = hd.1 := by
            have := (skuOf_inj hsk).2
            omega
          exact h.1 (List.mem_map.mpr ⟨p, hp, hpd⟩)
      · exact ih h.2

/-- C1: for every market_price ≥ 0, the Price Engine returns
`max(market_price * (1 - discount), floor)` with defaults discount 0.80
and floor 120.00; in particular 1000.00 maps to 200.00 and 100.00 to
120.00 (floor binds). -/
theorem sale_price_floor_rule (p : ℚ) (hp : 0 ≤ p) :
    calculate_sale_price p = max (p * (1 - DISCOUNT_PERCENTAGE)) MINIMUM_SALE_PRICE ∧
    DISCOUNT_PERCENTAGE = 80 / 100 ∧ MINIMUM_SALE_PRICE = 120 ∧
    calculate_sale_price 1000 = 200 ∧ calculate_sale_price 100 = 120 := by
  refine ⟨rfl, rfl, rfl, ?_, ?_⟩ <;>
    norm_num [calculate_sale_price, DISCOUNT_PERCENTAGE, MINIMUM_SALE_PRICE]

theorem sale_price_floor_rule_witness :
    (0 : ℚ) ≤ 1000 ∧ calculate_sale_price 1000 = 200 :=
  ⟨by norm_num, (sale_price_floor_rule 1000 (by norm_num)).2.2.2.1⟩

/-- C9: with the default discount and floor, every market price at or
above 600 gets a sale price at most the regular price (the market
price itself), while the positive market price 100 gets the floor 120,
strictly above its regular price; nothing in the code checks
`sale_price ≤ regular_price`. -/
theorem sale_price_can_exceed_regular (p : ℚ) (hp : 600 ≤ p) :
    calculate_sale_price p ≤ p ∧ (0 : ℚ) < 100 ∧ 100 < calculate_sale_price 100 := by
  refine ⟨?_, by norm_num, by norm_num [calculate_sale_price, DISCOUNT_PERCENTAGE,
    MINIMUM_SALE_PRICE]⟩
  unfold calculate_sale_price DISCOUNT_PERCENTAGE MINIMUM_SALE_PRICE
  apply max_le
  · nlinarith
  · linarith

theorem sale_price_can_exceed_regular_witness :
    (600 : ℚ) ≤ 600 ∧ calculate_sale_price 600 ≤ 600 :=
  ⟨le_refl 600, (sale_price_can_exceed_regular 600 (le_refl 600)).1⟩

/-- C2: fanning one product with sku "ABC" out over the sizes ["S", "M"]
emits exactly 3 records: a variable parent with sku "ABC", attribute
slot ("Size", all sizes pipe-joined), then one variation per size with
sku "ABC-{size}", name "{parent} - {size}", parent reference "ABC",
inheriting the prices, descriptions and image of the parent and
carrying its single size value. -/
theorem variation_fanout_spec (pd : ProductData) (h : pd.sku = some "ABC") :
    (generate_csv_products [pd] ["S", "M"]).length = 3 ∧
    (generate_csv_products [pd] ["S", "M"]).map (fun r => r.type)
      = ["variable", "variation", "variation"] ∧
    (generate_csv_products [pd] ["S", "M"]).map (fun r => r.sku)
      = ["ABC", "ABC-S", "ABC-M"] ∧
    (generate_csv_products [pd] ["S", "M"]).map (fun r => r.parent) = ["", "ABC", "ABC"] ∧
    (generate_csv_products [pd] ["S", "M"]).map (fun r => r.attribute_1_name)
      = ["Size", "Size", "Size"] ∧
    (generate_csv_products [pd] ["S", "M"]).map (fun r => r.attribute_1_values)
      = ["S|M", "S", "M"] ∧
    (generate_csv_products [pd] ["S", "M"]).map (fun r => r.name)
      = [pd.name.getD "Product", pd.name.getD "Product" ++ " - " ++ "S",
          pd.name.getD "Product" ++ " - " ++ "M"] ∧
    (generate_csv_products [pd] ["S", "M"]).map (fun r => r.regular_price)
      = [pd.regular_price.getD "0.00", pd.regular_price.getD "0.00",
          pd.regular_price.getD "0.00"] ∧
    (generate_csv_products [pd] ["S", "M"]).map (fun r => r.sale_price)
      = [pd.sale_price.getD "", pd.sale_price.getD "", pd.sale_price.getD ""] ∧
    (generate_csv_products [pd] ["S", "M"]).map (fun r => r.short_description)
      = [pd.short_description.getD "", pd.short_description.getD "",
          pd.short_description.getD ""] ∧
    (generate_csv_products [pd] ["S", "M"]).map (fun r => r.description) = ["", "", ""] := by
  rcases pd with ⟨n, sk, rp, sp, sd, im⟩
  have h' : sk = some "ABC" := h
  subst h'
  exact ⟨rfl, rfl, rfl, rfl, rfl, rfl, rfl, rfl, rfl, rfl, rfl⟩

/-- Concrete product entry used to exercise the fan-out. -/
def pdTee : ProductData :=
  { name := some "Tee", sku := some "ABC", regular_price := some "10.00",
    sale_price := some "9.00", short_description := some "a tee", image := some "http://h/t.png" }

theorem variation_fanout_spec_witness :
    (generate_csv_products [pdTee] ["S", "M"]).map (fun r => r.sku)
      = ["ABC", "ABC-S", "ABC-M"] :=
  (variation_fanout_spec pdTee rfl).2.2.1

/-- C3: when every one of the 3 attempts raises, `analyze_image` returns
the fixed fallback dictionary (price 199.99, categories
["Uncategorized"], brand "Unknown", sentinel description) instead of
propagating the error; the function is total, embedding the
never-raises contract. -/
theorem analyze_image_total_failure (url : String)
    (oracle : Nat → Except String (RawResult × String))
    (h : ∀ a, a < maxRetries → ∃ e, oracle a = Except.error e) :
    analyze_image url oracle = fallbackA url ∧
    (analyze_image url oracle).original_price = 19999 / 100 ∧
    (analyze_image url oracle).categories = some (Sum.inr ["Uncategorized"]) ∧
    (analyze_image url oracle).brand = some "Unknown" ∧
    (analyze_image url oracle).short_description = some "Product details not available" := by
  obtain ⟨e0, h0⟩ := h 0 (by decide)
  obtain ⟨e1, h1⟩ := h 1 (by decide)
  obtain ⟨e2, h2⟩ := h 2 (by decide)
  have s0 : analyze_image url oracle =
      (match oracle 0 with
        | Except.ok r => postValidate url r.1 r.2
        | Except.error _ => analyzeFrom url oracle 2 1) := rfl
  have s1 : analyzeFrom url oracle 2 1 =
      (match oracle 1 with
        | Except.ok r => postValidate url r.1 r.2
        | Except.error _ => analyzeFrom url oracle 1 2) := rfl
  have s2 : analyzeFrom url oracle 1 2 =
      (match oracle 2 with
        | Except.ok r => postValidate url r.1 r.2
        | Except.error _ => fallbackA url) := rfl
  have hfin : analyze_image url oracle = fallbackA url := by
    rw [s0, h0]
    show analyzeFrom url oracle 2 1 = fallbackA url
    rw [s1, h1]
    show analyzeFrom url oracle 1 2 = fallbackA url
    rw [s2, h2]
  exact ⟨hfin, by rw [hfin]; rfl, by rw [hfin]; rfl, by rw [hfin]; rfl, by rw [hfin]; rfl⟩

/-- Oracle whose every attempt raises. -/
def oneOracleErr : Nat → Except String (RawResult × String) :=
  fun _ => Except.error "network error"

theorem analyze_image_total_failure_witness :
    analyze_image "http://host/img.png" oneOracleErr = fallbackA "http://host/img.png" :=
  (analyze_image_total_failure "http://host/img.png" oneOracleErr
    (fun _ _ => ⟨"network error", rfl⟩)).1

/-- C7 (amended): every result of `analyze_image` has a nonnegative
market price; strict positivity fails on the salvage path. -/
theorem analyze_image_price_nonneg (url : String)
    (oracle : Nat → Except String (RawResult × String)) :
    0 ≤ (analyze_image url oracle).original_price :=
  analyzeFrom_price_nonneg url oracle maxRetries 0

/-- Raw response text of a successful first attempt: a JSON object whose
`original_price` is the number 0.  Its first digit run, scanning left to
right, is that trailing 0 (no digit occurs earlier). -/
def jsonZeroText : String :=
  "\x7b\"product_name\": \"Mystery Box\", \"original_price\": 0\x7d"

/-- Parse of `jsonZeroText`: exactly the dict `json.loads` yields on that
text, so the parsed object and the raw text scanned by the salvage
regex are the coupled pair the source produces.  Its price 0 is numeric
but fails the `> 0` check. -/
def rawNonPos : RawResult :=
  { product_name := some "Mystery Box", original_price := some (some 0) }

/-- Oracle whose first attempt succeeds with the response `jsonZeroText`,
parsed to `rawNonPos`. -/
def oracleZero : Nat → Except String (RawResult × String) :=
  fun a =>
    match a with
    | 0 => Except.ok (rawNonPos, jsonZeroText)
    | _ => Except.error "e"

/-- C7 counterexample: on the salvage path the extracted price can be
exactly 0, refuting strict positivity of `original_price`. -/
theorem analyze_image_price_zero_counterexample :
    (analyze_image "http://h/p.png" oracleZero).original_price = 0 ∧
    ¬ (0 < (analyze_image "http://h/p.png" oracleZero).original_price) := by
  have h1 : (analyze_image "http://h/p.png" oracleZero).original_price
      = numeralVal ['0'] [] := rfl
  have h2 : numeralVal ['0'] [] = 0 := by
    have hv : valD ['0'] = 0 := by decide
    have hz : valD ([] : List Char) = 0 := by decide
    unfold numeralVal
    rw [hv, hz]
    norm_num
  have h3 := h1.trans h2
  exact ⟨h3, by rw [h3]; exact lt_irrefl 0⟩

/-- C4: the batch entry point raises exactly when the credential is empty
(and then with a fixed error independent of any per-URL input, hence
before any per-URL work); with a credential, an empty URL list gives an
empty batch, a URL whose iteration raises is omitted while the batch
continues, and with no such failure one record per URL is returned. -/
theorem process_image_urls_contract (urls : List String) (key : String)
    (o : Nat → Nat → Except String (RawResult × String)) (fatal : Nat → Option String)
    (tI tS : Nat → Nat) (today : String) :
    ((∃ e, process_image_urls urls key o fatal tI tS today = Except.error e) ↔ key = "") ∧
    (key = "" → process_image_urls urls key o fatal tI tS today =
      Except.error "GEMINI_API_KEY environment variable is not set") ∧
    (key ≠ "" → process_image_urls [] key o fatal tI tS today = Except.ok []) ∧
    (key ≠ "" → process_image_urls urls key o fatal tI tS today =
      Except.ok (urls.enum.filterMap (fun p =>
        match fatal p.1 with
        | some _ => none
        | none => some (buildProduct p.2 (p.1 + 1) (analyze_image p.2 (o p.1))
            (tI p.1) (tS p.1) today)))) ∧
    (key ≠ "" → (∀ j, fatal j = none) →
      ∃ recs, process_image_urls urls key o fatal tI tS today = Except.ok recs ∧
        recs.length = urls.length) := by
  by_cases hk : key = ""
  · refine ⟨⟨fun _ => hk, fun _ => ⟨"GEMINI_API_KEY environment variable is not set",
        by simp [process_image_urls, hk]⟩⟩,
      fun _ => by simp [process_image_urls, hk],
      fun h => absurd hk h, fun h => absurd hk h, fun h => absurd hk h⟩
  · refine ⟨⟨fun he => ?_, fun he => absurd he hk⟩, fun he => absurd he hk,
      fun _ => by simp [process_image_urls, hk], fun _ => by simp [process_image_urls, hk], ?_⟩
    · obtain ⟨e, he⟩ := he
      simp [process_image_urls, hk] at he
    · intro _ hf
      refine ⟨urls.enum.filterMap (fun p =>
          match fatal p.1 with
          | some _ => none
          | none => some (buildProduct p.2 (p.1 + 1) (analyze_image p.2 (o p.1))
              (tI p.1) (tS p.1) today)),
        by simp [process_image_urls, hk], ?_⟩
      have hlen : ∀ l : List (Nat × String),
          (l.filterMap (fun p =>
            match fatal p.1 with
            | some _ => none
            | none => some (buildProduct p.2 (p.1 + 1) (analyze_image p.2 (o p.1))
                (tI p.1) (tS p.1) today))).length = l.length := by
        intro l
        induction l with
        | nil => rfl
        | cons a t iht =>
          rw [List.filterMap_cons]
          simp only [hf a.1]
          simp [iht]
      rw [hlen urls.enum, List.enum_length]

/-- Oracle whose every per-URL attempt raises (the record then carries the
fallback extraction). -/
def oracleErr : Nat → Nat → Except String (RawResult × String) :=
  fun _ _ => Except.error "network error"

/-- No iteration raises unexpectedly. -/
def noFatal : Nat → Option String := fun _ => none

/-- Constant `int(time.time())` observation. -/
def timeConst : Nat → Nat := fun _ => 1700000001

theorem process_image_urls_contract_witness :
    process_image_urls ["http://h/a.png"] "" oracleErr noFatal timeConst timeConst "2025-01-01"
      = Except.error "GEMINI_API_KEY environment variable is not set" ∧
    process_image_urls ([] : List String) "key" oracleErr noFatal timeConst timeConst
      "2025-01-01" = Except.ok [] :=
  ⟨(process_image_urls_contract ["http://h/a.png"] "" oracleErr noFatal timeConst timeConst
      "2025-01-01").2.1 rfl,
    (process_image_urls_contract [] "key" oracleErr noFatal timeConst timeConst
      "2025-01-01").2.2.1 (by decide)⟩

/-- C5 (amended): records returned by the core batch entry point never
share a sku; the fan-out step applied to its output keeps skus unique
provided the requested size list has no duplicates (with duplicate
sizes, duplicate variation skus are emitted — see the
counterexample). -/
theorem batch_sku_uniqueness :
    (∀ (urls : List String) (key : String)
        (o : Nat → Nat → Except String (RawResult × String)) (fatal : Nat → Option String)
        (tI tS : Nat → Nat) (today : String) (recs : List WooCommerceProduct),
      process_image_urls urls key o fatal tI tS today = Except.ok recs →
      (recs.map (fun r => r.sku)).Nodup) ∧
    (∀ (products : List ProductData) (sizes : List String), sizes.Nodup →
      (∀ pd ∈ products, ∀ s, pd.sku = some s → PipeShaped s) →
      (products.filterMap (fun pd => pd.sku)).Nodup →
      ((generate_csv_products products sizes).map (fun r => r.sku)).Nodup) := by
  constructor
  · intro urls key o fatal tI tS today recs h
    by_cases hk : key = ""
    · simp [process_image_urls, hk] at h
    · simp only [process_image_urls, if_neg hk, Except.ok.injEq] at h
      subst h
      exact process_build_skus_nodup o fatal tI tS today urls.enum
        (List.nodup_enum_map_fst urls)
  · intro products sizes hsz hp hn
    exact fanout_skus_nodup sizes hsz products hp hn

/-- Fan-out input whose sku has the shape the pipeline produces. -/
def pdPipe : ProductData := { name := some "Tee", sku := some (skuOf 9 1) }

theorem batch_sku_uniqueness_witness :
    ((recordsOf (process_image_urls ["http://h/a.png"] "key" oracleErr noFatal timeConst
      timeConst "2025-01-01")).map (fun r => r.sku)).Nodup ∧
    ((generate_csv_products [pdPipe] ["S", "M"]).map (fun r => r.sku)).Nodup := by
  constructor
  · exact batch_sku_uniqueness.1 ["http://h/a.png"] "key" oracleErr noFatal timeConst timeConst
      "2025-01-01" _ rfl
  · refine batch_sku_uniqueness.2 [pdPipe] ["S", "M"] (by decide) ?_ (by decide)
    intro pd hpd s hs
    rw [List.mem_singleton] at hpd
    subst hpd
    have hv : some (skuOf 9 1) = some s := hs
    exact ⟨9, 1, (Option.some.inj hv).symm⟩

/-- C5 counterexample: fed a pipeline-shaped product and the duplicated
size list ["S", "S"], the fan-out emits two variations with the same
sku, so batch sku uniqueness fails as originally claimed. -/
theorem fanout_duplicate_sizes_counterexample :
    ¬ ((generate_csv_products [pdPipe] ["S", "S"]).map (fun r => r.sku)).Nodup := by decide

/-- C6: the serializer returns a boolean and is total (never raises);
empty input gives `false` for every file-system outcome (no file is
consulted or created), a raising write gives `false`, and the result is
`true` exactly when the input is non-empty, the write raised nothing,
and the file exists non-empty afterwards. -/
theorem save_to_csv_contract (products : List WooCommerceProduct) (env : WriteEnv) :
    (products = [] → save_to_csv products env = false) ∧
    (env.writeError ≠ none → save_to_csv products env = false) ∧
    (save_to_csv products env = true ↔
      products ≠ [] ∧ env.writeError = none ∧ env.existsAfter = true ∧ 0 < env.sizeAfter) := by
  rcases env with ⟨we, ex, sz⟩
  cases products with
  | nil => simp [save_to_csv]
  | cons p ps =>
    cases we with
    | some e => simp [save_to_csv]
    | none =>
      cases ex with
      | true =>
        by_cases hsz : 0 < sz
        · simp [save_to_csv, hsz]
        · simp [save_to_csv, hsz]
      | false => simp [save_to_csv]

/-- Environment of a successful write. -/
def envOk : WriteEnv := { writeError := none, existsAfter := true, sizeAfter := 42 }

theorem save_to_csv_contract_witness :
    save_to_csv [] envOk = false ∧ save_to_csv [{}] envOk = true :=
  ⟨(save_to_csv_contract [] envOk).1 rfl,
    (save_to_csv_contract [{}] envOk).2.2.mpr ⟨by simp, rfl, rfl, by decide⟩⟩

/-- C8: the batch entry point of `src/wootomator.py` has no worker pool;
it takes exactly two data arguments and iterates sequentially, so the
returned records deterministically preserve input-URL order (here on a
concrete three-URL batch), contradicting the claimed completion-order
nondeterminism; the repository's own callers (`app.py`,
`test_product_generation.py`) invoke the concurrent three-argument
variant that this module does not define. -/
theorem process_sequential_input_order :
    (recordsOf (process_image_urls ["http://h/a.png", "http://h/b.png", "http://h/c.png"]
      "key" oracleErr noFatal timeConst timeConst "2025-01-01")).map (fun r => r.images)
      = ["http://h/a.png", "http://h/b.png", "http://h/c.png"] := rfl

/-- C10: every record of the core batch entry point is a simple product:
type "simple" and empty parent reference; parents and variations are
only built by the separate CSV-generation step. -/
theorem process_records_simple (urls : List String) (key : String)
    (o : Nat → Nat → Except String (RawResult × String)) (fatal : Nat → Option String)
    (tI tS : Nat → Nat) (today : String) (recs : List WooCommerceProduct)
    (h : process_image_urls urls key o fatal tI tS today = Except.ok recs) :
    ∀ r ∈ recs, r.type = "simple" ∧ r.parent = "" := by
  by_cases hk : key = ""
  · simp [process_image_urls, hk] at h
  · simp only [process_image_urls, if_neg hk, Except.ok.injEq] at h
    subst h
    intro r hr
    rw [List.mem_filterMap] at hr
    obtain ⟨p, hp, hpr⟩ := hr
    cases hfp : fatal p.1 with
    | some e =>
      simp only [hfp] at hpr
      exact Option.noConfusion hpr
    | none =>
      simp only [hfp, Option.some.injEq] at hpr
      rw [← hpr]
      exact ⟨rfl, rfl⟩

theorem process_records_simple_witness :
    ((recordsOf (process_image_urls ["http://h/a.png"] "key" oracleErr noFatal timeConst
      timeConst "2025-01-01")).headD {}).type = "simple" ∧
    ((recordsOf (process_image_urls ["http://h/a.png"] "key" oracleErr noFatal timeConst
      timeConst "2025-01-01")).headD {}).parent = "" := by
  have hmem : ((recordsOf (process_image_urls ["http://h/a.png"] "key" oracleErr noFatal
      timeConst timeConst "2025-01-01")).headD {}) ∈
      recordsOf (process_image_urls ["http://h/a.png"] "key" oracleErr noFatal timeConst
        timeConst "2025-01-01") := by
    rw [show recordsOf (process_image_urls ["http://h/a.png"] "key" oracleErr noFatal
        timeConst timeConst "2025-01-01")
      = [(recordsOf (process_image_urls ["http://h/a.png"] "key" oracleErr noFatal timeConst
          timeConst "2025-01-01")).headD {}] from rfl]
    exact List.mem_singleton_self _
  exact process_records_simple ["http://h/a.png"] "key" oracleErr noFatal timeConst timeConst
    "2025-01-01" _ rfl _ hmem
